import Mathlib

/-!
Verification of the AI-Tutor-OECS client core: a shallow embedding of the
speech-duration estimator (`src/utils/speechTimingUtils.ts`), the subtitle
segmentation and timing computation (`SubtitleDisplay`), the drawing-activation
registry (`TTSContext` provider), the speech-recognition playback/timer state
machine (`SpeechRecognition.tsx`), and answer validation
(`AnswerValidator.tsx` / `App.handleSendMessage`).

JavaScript strings are modelled as Lean `String` over their character lists
(ASCII behaviour; the inputs of interest are plain text).  JavaScript numbers
are modelled as exact rationals (`ℚ`) where fractional arithmetic occurs and as
naturals/integers where all values are integral; `Math.round` is `round` and
`Math.floor` is `Int.floor`.
-/

namespace AITutor

/-- The character class of the JavaScript `\s` regex class and of
`String.prototype.trim`, restricted to the ASCII range: space, tab, line feed,
vertical tab, form feed, carriage return. -/
def isWs (c : Char) : Bool :=
  c = ' ' || c = '\t' || c = '\n' || c = '\r' || c.toNat = 11 || c.toNat = 12

/-- `String.prototype.trim` on a character list: drop leading and trailing
whitespace. -/
def trimList (l : List Char) : List Char :=
  ((l.dropWhile isWs).reverse.dropWhile isWs).reverse

/-- `text.trim()`. -/
def trimString (s : String) : String :=
  String.mk (trimList s.data)

/-- `text.toLowerCase()` (ASCII lowering). -/
def lowerString (s : String) : String :=
  String.mk (s.data.map Char.toLower)

/-- `(text.match(/c/g) || []).length`: number of occurrences of the single
character `c` in `s`. -/
def countChar (c : Char) (s : String) : Nat :=
  s.data.countP (fun d => d = c)

/-- Helper for `text.split(/\s+/).length` on trimmed text: counts maximal runs
of non-whitespace characters.  The boolean records whether the scan is
currently inside such a run. -/
def countRunsAux : List Char → Bool → Nat
  | [], _ => 0
  | c :: rest, inWord =>
    if isWs c then countRunsAux rest false
    else (if inWord then 0 else 1) + countRunsAux rest true

/-- `text.trim().split(/\s+/).length` from `estimateSpeechDuration`
(src/utils/speechTimingUtils.ts line 31).  JavaScript `"".split(/\s+/)` is
`[""]`, of length 1, so a whitespace-only input counts as one word. -/
def wordCount (text : String) : Nat :=
  let t := trimList text.data
  if t.isEmpty then 1 else countRunsAux t false

/-- `estimateSpeechDuration` (src/utils/speechTimingUtils.ts lines 19-46).
`!text` is true only for the empty string; `MS_PER_WORD = 60000 / 150 = 400`;
`periodCount` counts `'.'` occurrences and `commaCount` counts `','`
occurrences; the result is `Math.max(duration, 1000)`.  All values are
integral, so the result is a natural number of milliseconds. -/
def estimateSpeechDuration (text : String) : Nat :=
  if text = "" then 0
  else
    max (wordCount text * 400 + countChar '.' text * 300 + countChar ',' text * 150) 1000

/-- Modelled from the claim's words (C7), for comparison with the source
function: word count × 400ms, plus 300ms per sentence-terminal punctuation
mark — `'.'`, `'!'` and `'?'` — plus 150ms per comma, floored at 1000ms. -/
def estimateSpeechDurationSpec (text : String) : Nat :=
  max 1000
    (wordCount text * 400
      + (countChar '.' text + countChar '!' text + countChar '?' text) * 300
      + countChar ',' text * 150)

/-- Modelled from the amended claim's words (C7): identical to the claimed
formula except that only `'.'` contributes the 300ms sentence pause. -/
def estimateSpeechDurationPeriodSpec (text : String) : Nat :=
  max 1000
    (wordCount text * 400 + countChar '.' text * 300 + countChar ',' text * 150)

/-- A whitespace-only input, exercising the `!text` guard. -/
def wsOnlyText : String := " "

/-- A non-empty input whose only sentence-terminal punctuation is `'!'` and
`'?'`. -/
def bangQuestionText : String := "one two three! four five six?"

/-- A short input used as a witness instance. -/
def hiText : String := "Hi."

/-- C2 counterexample: the claim says whitespace-only text yields 0, bypassing
the floor; the code's `!text` guard only catches the empty string, so the
single whitespace character is counted as one word and the 1000ms floor
applies. -/
theorem C2_whitespace_counterexample :
    wsOnlyText ≠ "" ∧ trimString wsOnlyText = "" ∧
      estimateSpeechDuration wsOnlyText = 1000 ∧ estimateSpeechDuration wsOnlyText ≠ 0 := by
  refine ⟨by decide, by decide, by decide, by decide⟩

/-- C2 (amended): `estimateSpeechDuration` returns 0 for the empty string and
at least 1000 for every non-empty string, including whitespace-only ones. -/
theorem C2_empty_zero_nonempty_floor (t : String) :
    (t = "" → estimateSpeechDuration t = 0) ∧
      (t ≠ "" → 1000 ≤ estimateSpeechDuration t) := by
  constructor
  · intro h
    simp [estimateSpeechDuration, h]
  · intro h
    simp only [estimateSpeechDuration, if_neg h]
    exact le_max_right _ _

/-- C2 witness: the amended theorem instantiated at the whitespace-only
input. -/
theorem C2_empty_zero_nonempty_floor_witness :
    wsOnlyText ≠ "" ∧ 1000 ≤ estimateSpeechDuration wsOnlyText :=
  ⟨by decide, (C2_empty_zero_nonempty_floor wsOnlyText).2 (by decide)⟩

/-- C7 counterexample: on text whose sentence-terminal punctuation consists of
`'!'` and `'?'`, the code counts no periods and returns 2400ms, while the
claimed formula (which counts `'.'`, `'!'` and `'?'`) yields 3000ms. -/
theorem C7_bang_question_counterexample :
    estimateSpeechDuration bangQuestionText = 2400 ∧
      estimateSpeechDurationSpec bangQuestionText = 3000 ∧
      estimateSpeechDuration bangQuestionText ≠ estimateSpeechDurationSpec bangQuestionText := by
  refine ⟨by decide, by decide, by decide⟩

/-- C7 (amended): for every non-empty text the estimator equals
`max(1000, wordCount × 400 + 300 × #periods + 150 × #commas)` — only `'.'`
contributes the 300ms sentence pause, not `'!'` or `'?'`. -/
theorem C7_formula_periods_only (t : String) (h : t ≠ "") :
    estimateSpeechDuration t = estimateSpeechDurationPeriodSpec t := by
  simp only [estimateSpeechDuration, estimateSpeechDurationPeriodSpec, if_neg h]
  exact max_comm _ _

/-- C7 witness: the amended formula instantiated at a concrete short text. -/
theorem C7_formula_periods_only_witness :
    hiText ≠ "" ∧ estimateSpeechDuration hiText = estimateSpeechDurationPeriodSpec hiText :=
  ⟨by decide, C7_formula_periods_only hiText (by decide)⟩

/-!
### Subtitle Reveal Engine segmentation (`SubtitleDisplay`, src/unnamed/part_002)

The segmentation regex is
`/([^.!?]+[.!?]\s*|\S+(?:\s+\S+){7,11}\s*)/g`: either a run of
non-sentence-terminal characters followed by one of `.!?` and optional
whitespace, or an 8-to-12-word chunk.  `text.match` collects all
non-overlapping matches scanning left to right, preferring the first
alternative at each position; `|| [text]` substitutes the whole text when
there is no match.  Both alternatives are matched with JavaScript's greedy
semantics, under which every sub-quantifier below is forced to consume a
maximal run (shrinking any of them makes the immediately following atom
fail). -/

/-- The sentence-terminal character class `[.!?]`. -/
def isPunct (c : Char) : Bool :=
  c = '.' || c = '!' || c = '?'

/-- First regex alternative `[^.!?]+[.!?]\s*` at the head of `s`: a non-empty
maximal run of non-terminal characters, a terminal character, then maximal
whitespace.  Returns the matched characters and the remaining suffix. -/
def matchSentence (s : List Char) : Option (List Char × List Char) :=
  let run := s.takeWhile (fun c => !isPunct c)
  if run.isEmpty then none
  else
    match s.drop run.length with
    | [] => none
    | c :: rest =>
      if isPunct c then
        let ws := rest.takeWhile isWs
        some (run ++ c :: ws, rest.drop ws.length)
      else none

/-- Up to `bound` repetitions of `(?:\s+\S+)`, each consuming a maximal
whitespace run followed by a maximal word.  Returns the repetition count, the
consumed characters, and the remaining suffix. -/
def takeWordUnits : Nat → List Char → Nat × List Char × List Char
  | 0, s => (0, [], s)
  | Nat.succ k, s =>
    let ws := s.takeWhile isWs
    if ws.isEmpty then (0, [], s)
    else
      let s1 := s.drop ws.length
      let w := s1.takeWhile (fun c => !isWs c)
      if w.isEmpty then (0, [], s)
      else
        let res := takeWordUnits k (s1.drop w.length)
        (res.1 + 1, ws ++ w ++ res.2.1, res.2.2)

/-- Second regex alternative `\S+(?:\s+\S+){7,11}\s*` at the head of `s`: a
word followed by 7 to 11 further whitespace-separated words (greedy, so as
many as available up to 11) and trailing whitespace. -/
def matchChunk (s : List Char) : Option (List Char × List Char) :=
  let w := s.takeWhile (fun c => !isWs c)
  if w.isEmpty then none
  else
    let s1 := s.drop w.length
    let res := takeWordUnits 11 s1
    if res.1 < 7 then none
    else
      let ws := res.2.2.takeWhile isWs
      some (w ++ res.2.1 ++ ws, res.2.2.drop ws.length)

/-- The alternation at one position: the first alternative is preferred. -/
def matchSegmentAt (s : List Char) : Option (List Char × List Char) :=
  match matchSentence s with
  | some r => some r
  | none => matchChunk s

/-- Global scan of `text.match(regex)`: at each position try the pattern; on a
match emit it and continue after it, otherwise advance one character.  Fuel is
the remaining length (each step consumes at least one character). -/
def scanSegments : Nat → List Char → List (List Char)
  | 0, _ => []
  | Nat.succ k, s =>
    match s with
    | [] => []
    | _ :: rest =>
      match matchSegmentAt s with
      | some (m, r) => m :: scanSegments k r
      | none => scanSegments k rest

/-- `const extractedSegments = text.match(segmentRegex) || [text]`
(src/unnamed/part_002 lines 38-39), guarded by the effect's early return for
empty text (line 28). -/
def extractSegments (text : String) : List String :=
  if text = "" then []
  else
    let r := scanSegments text.data.length text.data
    if r.isEmpty then [text] else r.map String.mk

/-- `const trimmedSegments = extractedSegments.map(s => s.trim())` (line 40). -/
def trimmedSegments (text : String) : List String :=
  (extractSegments text).map trimString

/-- Per-segment timings (lines 44-50):
`Math.round(totalDuration × (segment.length / totalTextLength))` over the
trimmed segments, with `totalTextLength = text.length`. -/
def segmentTimings (text : String) (totalDuration : ℚ) : List ℤ :=
  (trimmedSegments text).map
    (fun seg => round (totalDuration * ((seg.length : ℚ) / (text.length : ℚ))))

/-- The concrete narration used to refute C5: two one-word sentences whose
separating space is dropped by trimming. -/
def twoSentenceText : String := "Hi. Yo."

/-- The first trimmed segment of `twoSentenceText`. -/
def hiSeg : String := "Hi."

/-- The second trimmed segment of `twoSentenceText`. -/
def yoSeg : String := "Yo."

/-- `Math.round(7000 × 3/7)` is exactly 3000. -/
theorem round_seg_value : round ((7000 : ℚ) * ((3 : ℚ) / (7 : ℚ))) = 3000 := by
  have h : (7000 : ℚ) * ((3 : ℚ) / (7 : ℚ)) = ((3000 : ℤ) : ℚ) := by norm_num
  rw [h, round_intCast]

/-- Concrete evaluation of the timings on `twoSentenceText`. -/
theorem segmentTimings_twoSentence :
    segmentTimings twoSentenceText 7000 = [3000, 3000] := by
  have hseg : trimmedSegments twoSentenceText = [hiSeg, yoSeg] := by decide
  have hT : ((twoSentenceText.length : ℕ) : ℚ) = 7 := by
    rw [show twoSentenceText.length = 7 from by decide]
    norm_num
  have hHi : ((hiSeg.length : ℕ) : ℚ) = 3 := by
    rw [show hiSeg.length = 3 from by decide]
    norm_num
  have hYo : ((yoSeg.length : ℕ) : ℚ) = 3 := by
    rw [show yoSeg.length = 3 from by decide]
    norm_num
  simp only [segmentTimings, hseg, List.map_cons, List.map_nil, hT, hHi, hYo, round_seg_value]

/-- C5 counterexample: for the text `"Hi. Yo."` (7 characters) and total
duration 7000ms, the two trimmed segments have length 3 each, so each timing
is `round(7000 × 3/7) = 3000` and the sum is 6000 — the absolute difference
from the provided total is 1000, far more than the 2 segments. -/
theorem C5_trimming_counterexample :
    (segmentTimings twoSentenceText 7000).sum = 6000 ∧
      (trimmedSegments twoSentenceText).length = 2 ∧
      ¬ |((segmentTimings twoSentenceText 7000).sum : ℚ) - 7000|
          ≤ ((trimmedSegments twoSentenceText).length : ℚ) := by
  have h1 : (segmentTimings twoSentenceText 7000).sum = 6000 := by
    rw [segmentTimings_twoSentence]
    decide
  have h2 : (trimmedSegments twoSentenceText).length = 2 := by decide
  refine ⟨h1, h2, ?_⟩
  rw [h1, h2]
  norm_num

/-- Sum of roundings differs from the sum by at most half the list length. -/
theorem sum_round_sub_sum_le (l : List ℚ) :
    |((l.map (fun x => round x)).sum : ℚ) - l.sum| ≤ (l.length : ℚ) / 2 := by
  induction l with
  | nil => simp
  | cons x xs ih =>
    have hx : |((round x : ℤ) : ℚ) - x| ≤ 1 / 2 := by
      rw [abs_sub_comm]
      exact abs_sub_round x
    have hsplit : (((x :: xs).map (fun y => round y)).sum : ℚ) - (x :: xs).sum
        = (((round x : ℤ) : ℚ) - x)
          + (((xs.map (fun y => round y)).sum : ℚ) - xs.sum) := by
      rw [List.map_cons, List.sum_cons, List.sum_cons, Int.cast_add]
      ring
    rw [hsplit]
    refine le_trans (abs_add _ _) ?_
    refine le_trans (add_le_add hx ih) ?_
    rw [List.length_cons]
    push_cast
    linarith

/-- The exact (pre-rounding) proportional durations sum to the duration scaled
by the ratio of total segment length to full text length. -/
theorem exact_timings_sum (L : List String) (D T : ℚ) :
    (L.map (fun seg => D * ((seg.length : ℚ) / T))).sum
      = D * (((L.map String.length).sum : ℚ) / T) := by
  induction L with
  | nil => simp
  | cons s rest ih =>
    simp only [List.map_cons, List.sum_cons, ih, Nat.cast_add]
    ring

/-- C5 (amended): the rounded per-segment durations sum to within the number
of segments of `totalDuration × (sum of trimmed segment lengths) / (text
length)`; because trimming drops inter-segment whitespace, this scaled target
— not `totalDuration` itself — is what the sum approximates. -/
theorem C5_sum_within_segments_of_scaled_total (text : String) (totalDuration : ℚ) :
    |((segmentTimings text totalDuration).sum : ℚ)
        - totalDuration * ((((trimmedSegments text).map String.length).sum : ℚ)
            / (text.length : ℚ))|
      ≤ ((trimmedSegments text).length : ℚ) := by
  have h := sum_round_sub_sum_le
    ((trimmedSegments text).map
      (fun seg => totalDuration * ((seg.length : ℚ) / (text.length : ℚ))))
  rw [List.map_map, List.length_map,
    exact_timings_sum (trimmedSegments text) totalDuration (text.length : ℚ)] at h
  have h2 : |((segmentTimings text totalDuration).sum : ℚ)
      - totalDuration * ((((trimmedSegments text).map String.length).sum : ℚ)
          / (text.length : ℚ))|
      ≤ ((trimmedSegments text).length : ℚ) / 2 := by
    simpa [segmentTimings, Function.comp] using h
  have h3 : ((trimmedSegments text).length : ℚ) / 2
      ≤ ((trimmedSegments text).length : ℚ) := by
    have hp : (0 : ℚ) ≤ ((trimmedSegments text).length : ℚ) := by positivity
    linarith
  exact le_trans h2 h3

/-!
### Drawing-Activation Registry (`TTSContext` provider, src/unnamed/part_001)

The provider keeps `currentTTS`, `isPlaying`, `audioDuration`, `drawings` and
`activeDrawingIds` in React state.  Handlers are closures over one render's
state: a directly-invoked mutator sees the committed state, but the zero-delay
task scheduled inside `handleSetDrawings` reads the `drawings` and
`activeDrawingIds` captured *before* `setDrawings` committed, while its
`setActiveDrawingIds(prev => ...)` updates operate on the fresh list.  The
embedding makes this explicit: `activateCore` takes the drawings list the
closure saw as a separate argument. -/

/-- A JavaScript `string | number` value (numbers restricted to the integral
values that occur in answers and drawing payloads). -/
inductive StrOrNum where
  | str (s : String)
  | num (n : ℤ)
deriving DecidableEq

/-- JavaScript `String(v)`: identity on strings, decimal rendering of
integral numbers. -/
def jsToString : StrOrNum → String
  | .str s => s
  | .num n => toString n

/-- A point of a `path` instruction. -/
structure DrawPoint where
  x : ℚ
  y : ℚ
deriving DecidableEq

/-- `DrawingInstruction` (src/unnamed/part_001 lines 4-23): `id` is optional;
all other optional fields are payload carried through unchanged. -/
structure DrawingInstruction where
  id : Option String
  type : String
  x : ℚ
  y : ℚ
  width : Option ℚ := none
  height : Option ℚ := none
  radius : Option ℚ := none
  endX : Option ℚ := none
  endY : Option ℚ := none
  points : Option (List DrawPoint) := none
  color : Option String := none
  lineWidth : Option ℚ := none
  text : Option String := none
  fontSize : Option ℚ := none
  fontFamily : Option String := none
  count : Option ℚ := none
  value : Option StrOrNum := none
  symbol : Option String := none
deriving DecidableEq

/-- The provider's state (src/unnamed/part_001 lines 46-50). -/
structure TTSState where
  currentTTS : String
  isPlaying : Bool
  audioDuration : ℚ
  drawings : List DrawingInstruction
  activeDrawingIds : List String
deriving DecidableEq

/-- The fallback-id prefix string used by the provider's `handleSetDrawings`. -/
def ctxAutoIdTag : String := "ctx-auto-id-"

/-- The fallback-id prefix string recognised by `activateDrawing`. -/
def autoIdTag : String := "auto-id-"

/-- The id-assignment pass of `handleSetDrawings` (lines 98-104):
`newDrawings.map((drawing, index) => ...)`, replacing a missing id — JavaScript
`!drawing.id`, which also catches the empty string — with
`` `ctx-auto-id-${index}` ``. -/
def processFrom : Nat → List DrawingInstruction → List DrawingInstruction
  | _, [] => []
  | i, d :: rest =>
    (if d.id = none ∨ d.id = some "" then { d with id := some (ctxAutoIdTag ++ toString i) }
     else d)
      :: processFrom (i + 1) rest

/-- The processed drawings stored by `handleSetDrawings`. -/
def processDrawings (l : List DrawingInstruction) : List DrawingInstruction :=
  processFrom 0 l

/-- `setActiveDrawingIds(prev => prev.includes(x) ? prev : [...prev, x])`. -/
def addUnique (a : List String) (x : String) : List String :=
  if a.contains x then a else a ++ [x]

/-- JavaScript `s.split(sep)` for a one-character separator, on character
lists: `"".split('-')` is `[""]` and a trailing separator yields a trailing
empty component. -/
def splitOnCharAux (sep : Char) : List Char → List Char → List (List Char)
  | [], acc => [acc.reverse]
  | c :: rest, acc =>
    if c = sep then acc.reverse :: splitOnCharAux sep rest []
    else splitOnCharAux sep rest (c :: acc)

/-- `s.split(sep)` for a one-character separator. -/
def splitOnChar (sep : Char) (l : List Char) : List (List Char) :=
  splitOnCharAux sep l []

/-- JavaScript `s.startsWith(p)` on character lists. -/
def startsWithList : List Char → List Char → Bool
  | _, [] => true
  | [], _ :: _ => false
  | c :: rest, p :: ps => c = p && startsWithList rest ps

/-- `s.startsWith(p)`. -/
def strStartsWith (s p : String) : Bool :=
  startsWithList s.data p.data

/-- `parseInt(s, 10)`: an optional sign followed by a leading digit run;
`none` models `NaN`. -/
def parseIntDecimal (s : List Char) : Option ℤ :=
  let signed : ℤ × List Char :=
    match s with
    | '-' :: r => (-1, r)
    | '+' :: r => (1, r)
    | r => (1, r)
  let digs := signed.2.takeWhile Char.isDigit
  if digs.isEmpty then none
  else some (signed.1 * (digs.foldl (fun a c => 10 * a + (c.toNat - 48)) 0 : ℕ))

/-- `parseInt(id.split('-').pop() || '-1', 10)` (line 130): the last
dash-separated component; an empty last component falls back to `'-1'`. -/
def parsePopIndex (id : String) : Option ℤ :=
  let comp := (splitOnChar '-' id.data).getLastD []
  parseIntDecimal (if comp.isEmpty then ['-', '1'] else comp)

/-- `activateDrawing` (src/unnamed/part_001 lines 120-158), as a function of
the `drawings` list the closure captured, the current active-id list, and the
requested id.  If the id exists among the captured drawings the normal
deduplicating append runs; otherwise, for ids with an `auto-id-` or
`ctx-auto-id-` prefix whose numeric suffix is a valid index, the drawing at
that index is activated instead (early return); in every other case the
normal append of the requested id runs. -/
def activateCore (drawings : List DrawingInstruction) (active : List String)
    (id : String) : List String :=
  if drawings.any (fun d => d.id == some id) then addUnique active id
  else if strStartsWith id autoIdTag || strStartsWith id ctxAutoIdTag then
    match parsePopIndex id with
    | some n =>
      if 0 ≤ n ∧ n < (drawings.length : ℤ) then
        match drawings.get? n.toNat with
        | some dAt =>
          match dAt.id with
          | some s => if s ≠ "" then addUnique active s else addUnique active id
          | none => addUnique active id
        | none => addUnique active id
      else addUnique active id
    | none => addUnique active id
  else addUnique active id

/-- A direct `activateDrawing(id)` call on the committed state. -/
def activateDrawing (s : TTSState) (id : String) : TTSState :=
  { s with activeDrawingIds := activateCore s.drawings s.activeDrawingIds id }

/-- `activateDrawing` of the plain `TTSContext.tsx` variant
(src/src/context/TTSContext.tsx lines 58-65): an unconditional append with no
duplicate check. -/
def activateDrawingSimple (s : TTSState) (id : String) : TTSState :=
  { s with activeDrawingIds := s.activeDrawingIds ++ [id] }

/-- `handleSetDrawings` (src/unnamed/part_001 lines 94-118) together with its
zero-delay auto-activation task: ids are assigned, the processed list is
stored, and the task — whose closure reads the pre-call `drawings` and
`activeDrawingIds` — activates every processed drawing whose (truthy) id is
not in the *stale* active list, through `activateCore` over the *stale*
drawings, while the functional updates accumulate on the fresh active list. -/
def handleSetDrawings (s : TTSState) (newDrawings : List DrawingInstruction) : TTSState :=
  let processed := processDrawings newDrawings
  let active' := processed.foldl
    (fun acc d =>
      match d.id with
      | some i => if i ≠ "" ∧ ¬ s.activeDrawingIds.contains i then
          activateCore s.drawings acc i
        else acc
      | none => acc)
    s.activeDrawingIds
  { s with drawings := processed, activeDrawingIds := active' }

/-- `resetActiveDrawings` (src/unnamed/part_001 lines 160-163):
`setActiveDrawingIds([])`. -/
def resetActiveDrawings (s : TTSState) : TTSState :=
  { s with activeDrawingIds := [] }

/-! ### Concrete registry fixtures -/

/-- The id string `"a"`. -/
def aId : String := "a"

/-- The id string `"b"`. -/
def bId : String := "b"

/-- The id string `"X"`. -/
def xId : String := "X"

/-- An instruction arriving without an id. -/
def appleNoId : DrawingInstruction := { id := none, type := "apple", x := 0, y := 0 }

/-- An instruction with id `"a"`. -/
def instrA : DrawingInstruction := { id := some aId, type := "circle", x := 1, y := 1 }

/-- An instruction with id `"b"`. -/
def instrB : DrawingInstruction := { id := some bId, type := "circle", x := 2, y := 2 }

/-- An instruction with id `"X"`. -/
def instrX : DrawingInstruction := { id := some xId, type := "rectangle", x := 3, y := 3 }

/-- A registry state with no drawings and nothing active. -/
def emptyState : TTSState :=
  { currentTTS := "", isPlaying := false, audioDuration := 0,
    drawings := [], activeDrawingIds := [] }

/-- A registry state in which the unmatched id `"auto-id-1"` is already
active while the drawing set holds two other drawings. -/
def fallbackState : TTSState :=
  { currentTTS := "", isPlaying := false, audioDuration := 0,
    drawings := [instrA, instrB], activeDrawingIds := [autoIdTag ++ toString 1] }

/-- A registry state whose single drawing has id `"a"`, with `"a"` active. -/
def knownState : TTSState :=
  { currentTTS := "", isPlaying := false, audioDuration := 0,
    drawings := [instrA], activeDrawingIds := [aId] }

/-- A registry state holding a drawing from an earlier turn, nothing active. -/
def staleState : TTSState :=
  { currentTTS := "", isPlaying := false, audioDuration := 0,
    drawings := [instrX], activeDrawingIds := [] }

/-! ### Lemmas about the id-assignment pass and activation -/

/-- An assigned fallback id is never the empty string. -/
theorem ctxAutoId_ne_empty (n : Nat) : ctxAutoIdTag ++ toString n ≠ "" := by
  intro h
  have hl := congrArg String.length h
  rw [String.length_append] at hl
  have h12 : ctxAutoIdTag.length = 12 := by decide
  have h0 : ("" : String).length = 0 := by decide
  omega

/-- The id-assignment pass preserves length. -/
theorem processFrom_length (n : Nat) (l : List DrawingInstruction) :
    (processFrom n l).length = l.length := by
  induction l generalizing n with
  | nil => rfl
  | cons d rest ih => simp [processFrom, ih]

/-- Pointwise description of the id-assignment pass. -/
theorem processFrom_get? (n i : Nat) (l : List DrawingInstruction) :
    (processFrom n l).get? i
      = (l.get? i).map (fun d =>
          if d.id = none ∨ d.id = some "" then
            { d with id := some (ctxAutoIdTag ++ toString (n + i)) }
          else d) := by
  induction l generalizing n i with
  | nil => simp [processFrom]
  | cons d rest ih =>
    cases i with
    | zero => simp [processFrom]
    | succ j =>
      have harith : n + (j + 1) = (n + 1) + j := by omega
      simp only [processFrom, List.get?_cons_succ, harith]
      exact ih (n + 1) j

/-- Every instruction leaving the id-assignment pass carries a non-empty id. -/
theorem processFrom_id_nonempty (n : Nat) (l : List DrawingInstruction) :
    ∀ d ∈ processFrom n l, ∃ nm, d.id = some nm ∧ nm ≠ "" := by
  induction l generalizing n with
  | nil => intro d h; simp [processFrom] at h
  | cons a rest ih =>
    intro d h
    simp only [processFrom, List.mem_cons] at h
    rcases h with h | h
    · by_cases hc : a.id = none ∨ a.id = some ""
      · rw [if_pos hc] at h
        subst h
        exact ⟨ctxAutoIdTag ++ toString n, rfl, ctxAutoId_ne_empty n⟩
      · rw [if_neg hc] at h
        subst h
        push_neg at hc
        cases ha : d.id with
        | none => exact absurd ha hc.1
        | some nm =>
          refine ⟨nm, rfl, ?_⟩
          intro he
          exact hc.2 (by rw [ha, he])
    · exact ih (n + 1) d h

/-- The requested id is a member after the deduplicating append. -/
theorem addUnique_mem_self (a : List String) (x : String) : x ∈ addUnique a x := by
  unfold addUnique
  split
  · next h => exact List.elem_iff.mp h
  · simp

/-- The deduplicating append preserves membership. -/
theorem addUnique_mem_mono (a : List String) (x y : String) (h : y ∈ a) :
    y ∈ addUnique a x := by
  unfold addUnique
  split
  · exact h
  · exact List.mem_append_left _ h

/-- `activateDrawing` only ever appends: membership is preserved. -/
theorem activateCore_mono (ds : List DrawingInstruction) (acc : List String)
    (i y : String) (h : y ∈ acc) : y ∈ activateCore ds acc i := by
  unfold activateCore
  repeat' split
  all_goals exact addUnique_mem_mono _ _ _ h

/-- Against an empty captured drawing list, activation always reduces to the
deduplicating append of the requested id. -/
theorem activateCore_nil (acc : List String) (id : String) :
    activateCore [] acc id = addUnique acc id := by
  unfold activateCore
  simp only [List.any_nil, List.length_nil, Nat.cast_zero, Bool.false_eq_true, if_false]
  split
  · cases hp : parsePopIndex id with
    | none => rfl
    | some n =>
      have hn : ¬ (0 ≤ n ∧ n < (0 : ℤ)) := by omega
      dsimp only
      rw [if_neg hn]
  · rfl

/-- The auto-activation fold preserves membership of the accumulator. -/
theorem foldl_activate_mono (stale : List String) (ds : List DrawingInstruction)
    (l : List DrawingInstruction) (acc : List String) (y : String) (h : y ∈ acc) :
    y ∈ l.foldl
      (fun acc d =>
        match d.id with
        | some i => if i ≠ "" ∧ ¬ stale.contains i then activateCore ds acc i else acc
        | none => acc)
      acc := by
  induction l generalizing acc with
  | nil => exact h
  | cons d rest ih =>
    rw [List.foldl_cons]
    apply ih
    cases hid : d.id with
    | none => exact h
    | some i =>
      dsimp only
      split
      · exact activateCore_mono _ _ _ _ h
      · exact h

/-- When the closure's captured drawing list is empty, the auto-activation
fold ends with every listed non-empty id a member, provided the stale active
list is contained in the accumulator. -/
theorem mem_foldl_activate_of_mem (stale : List String) (l : List DrawingInstruction)
    (acc : List String) (hstale : ∀ x ∈ stale, x ∈ acc) :
    ∀ d ∈ l, ∀ nm, d.id = some nm → nm ≠ "" →
      nm ∈ l.foldl
        (fun acc d =>
          match d.id with
          | some i => if i ≠ "" ∧ ¬ stale.contains i then activateCore [] acc i else acc
          | none => acc)
        acc := by
  induction l generalizing acc with
  | nil => intro d hd; exact absurd hd (List.not_mem_nil d)
  | cons a rest ih =>
    intro d hd nm hnm hne
    rw [List.foldl_cons]
    rcases List.mem_cons.mp hd with h | h
    · subst h
      apply foldl_activate_mono
      rw [hnm]
      dsimp only
      by_cases hc : nm ≠ "" ∧ ¬ stale.contains nm
      · rw [if_pos hc, activateCore_nil]
        exact addUnique_mem_self _ _
      · rw [if_neg hc]
        push_neg at hc
        exact hstale nm (List.elem_iff.mp (hc hne))
    · refine ih _ ?_ d h nm hnm hne
      intro x hx
      cases hid : a.id with
      | none => exact hstale x hx
      | some i =>
        dsimp only
        split
        · exact activateCore_mono _ _ _ _ (hstale x hx)
        · exact hstale x hx

/-!
### Claims C3, C4, C8, C10
-/

/-- C3 counterexample: an instruction arriving without an id at position 0 is
stored with the fallback id `"ctx-auto-id-0"`, not the claimed
`"auto-id-0"`. -/
theorem C3_ctx_prefix_counterexample :
    ((handleSetDrawings emptyState [appleNoId]).drawings.map DrawingInstruction.id)
        = [some (ctxAutoIdTag ++ toString 0)] ∧
      ((handleSetDrawings emptyState [appleNoId]).drawings.map DrawingInstruction.id)
        ≠ [some (autoIdTag ++ toString 0)] := by
  exact ⟨by decide, by decide⟩

/-- C3 (amended): after `setDrawings` every stored instruction has a
non-empty id; an instruction with a missing (or empty) id at position `i` is
stored with the deterministic fallback id `"ctx-auto-id-" ++ i`, and an
instruction arriving with a non-empty id is stored unchanged. -/
theorem C3_setDrawings_id_assignment (s : TTSState) (l : List DrawingInstruction) :
    (handleSetDrawings s l).drawings.length = l.length ∧
      (∀ d ∈ (handleSetDrawings s l).drawings, ∃ nm, d.id = some nm ∧ nm ≠ "") ∧
      (∀ i d, l.get? i = some d → d.id = none ∨ d.id = some "" →
        (handleSetDrawings s l).drawings.get? i
          = some { d with id := some (ctxAutoIdTag ++ toString i) }) ∧
      (∀ i d nm, l.get? i = some d → d.id = some nm → nm ≠ "" →
        (handleSetDrawings s l).drawings.get? i = some d) := by
  have hdr : (handleSetDrawings s l).drawings = processFrom 0 l := rfl
  refine ⟨?_, ?_, ?_, ?_⟩
  · rw [hdr]
    exact processFrom_length 0 l
  · rw [hdr]
    exact processFrom_id_nonempty 0 l
  · intro i d hget hid
    rw [hdr, processFrom_get?, hget, Option.map_some', if_pos hid, Nat.zero_add]
  · intro i d nm hget hid hne
    rw [hdr, processFrom_get?, hget, Option.map_some', if_neg]
    intro hcase
    rcases hcase with hnone | hemp
    · rw [hid] at hnone
      exact Option.noConfusion hnone
    · rw [hid] at hemp
      exact hne (Option.some.inj hemp)

/-- C3 witness: the amended theorem instantiated at a one-element list whose
instruction has no id. -/
theorem C3_setDrawings_id_assignment_witness :
    ([appleNoId].get? 0 = some appleNoId) ∧ appleNoId.id = none ∧
      (handleSetDrawings emptyState [appleNoId]).drawings.get? 0
        = some { appleNoId with id := some (ctxAutoIdTag ++ toString 0) } :=
  ⟨rfl, rfl,
    (C3_setDrawings_id_assignment emptyState [appleNoId]).2.2.1 0 appleNoId rfl (Or.inl rfl)⟩

/-- C4 counterexample: in a state where `"auto-id-1"` is already active but
absent from the drawing set, re-activating it takes the positional fallback
path and appends the id of the drawing at index 1, changing
`activeDrawingIds`. -/
theorem C4_fallback_counterexample :
    (autoIdTag ++ toString 1) ∈ fallbackState.activeDrawingIds ∧
      (activateDrawing fallbackState (autoIdTag ++ toString 1)).activeDrawingIds
        ≠ fallbackState.activeDrawingIds := by
  exact ⟨by decide, by decide⟩

/-- C4 (amended): `activateDrawing(id)` is idempotent whenever `id` is the id
of one of the stored drawings: if such an id is already active, a repeated
activation leaves the whole state unchanged.  (For ids absent from the
drawing set the `auto-id`/`ctx-auto-id` positional fallback can instead
append another drawing's id, and the plain `TTSContext.tsx` variant appends
unconditionally.) -/
theorem C4_activate_idempotent_for_known_ids (s : TTSState) (id : String)
    (hex : s.drawings.any (fun d => d.id == some id) = true)
    (hmem : s.activeDrawingIds.contains id = true) :
    activateDrawing s id = s := by
  have h : activateCore s.drawings s.activeDrawingIds id = s.activeDrawingIds := by
    unfold activateCore addUnique
    rw [hex, hmem]
    simp
  unfold activateDrawing
  rw [h]

/-- C4 witness: the amended theorem instantiated at a state whose single
drawing `"a"` is already active. -/
theorem C4_activate_idempotent_for_known_ids_witness :
    (knownState.drawings.any (fun d => d.id == some aId) = true) ∧
      knownState.activeDrawingIds.contains aId = true ∧
      activateDrawing knownState aId = knownState :=
  ⟨by decide, by decide,
    C4_activate_idempotent_for_known_ids knownState aId (by decide) (by decide)⟩

/-- C8: `resetActive()` empties `activeDrawingIds` and leaves the drawings,
narration text, playing flag and audio duration untouched. -/
theorem C8_resetActive_frame (s : TTSState) :
    (resetActiveDrawings s).activeDrawingIds = [] ∧
      (resetActiveDrawings s).drawings = s.drawings ∧
      (resetActiveDrawings s).currentTTS = s.currentTTS ∧
      (resetActiveDrawings s).isPlaying = s.isPlaying ∧
      (resetActiveDrawings s).audioDuration = s.audioDuration :=
  ⟨rfl, rfl, rfl, rfl, rfl⟩

/-- C10 counterexample: with a drawing from an earlier turn still stored, the
zero-delay task's closure reads the *stale* drawing list, so the freshly
assigned id `"ctx-auto-id-0"` triggers the positional fallback and the stale
drawing's id `"X"` is activated instead — the processed instruction's own id
never enters `activeDrawingIds`. -/
theorem C10_stale_fallback_counterexample :
    ((handleSetDrawings staleState [appleNoId]).drawings.map DrawingInstruction.id)
        = [some (ctxAutoIdTag ++ toString 0)] ∧
      (ctxAutoIdTag ++ toString 0)
          ∉ (handleSetDrawings staleState [appleNoId]).activeDrawingIds ∧
      (handleSetDrawings staleState [appleNoId]).activeDrawingIds = [xId] := by
  exact ⟨by decide, by decide, by decide⟩

/-- C10 (amended): when the registry's drawing set is empty before the call —
the fresh-turn situation — `setDrawings` itself activates every stored
instruction: after the zero-delay task runs, the id of every processed
instruction is a member of `activeDrawingIds`, independent of any marker
timing or explicit orchestrator activation.  (With a non-empty prior drawing
set, the stale-closure positional fallback can activate an old drawing's id
instead, as the counterexample shows.) -/
theorem C10_setDrawings_activates_all_from_empty (s : TTSState)
    (l : List DrawingInstruction) (hempty : s.drawings = []) :
    ∀ d ∈ (handleSetDrawings s l).drawings, ∀ nm, d.id = some nm →
      nm ∈ (handleSetDrawings s l).activeDrawingIds := by
  intro d hd nm hnm
  have hne : nm ≠ "" := by
    obtain ⟨nm', hnm', hne'⟩ := processFrom_id_nonempty 0 l d hd
    rw [hnm] at hnm'
    rw [Option.some.inj hnm']
    exact hne'
  show nm ∈ (processFrom 0 l).foldl
    (fun acc d =>
      match d.id with
      | some i => if i ≠ "" ∧ ¬ s.activeDrawingIds.contains i then
          activateCore s.drawings acc i
        else acc
      | none => acc)
    s.activeDrawingIds
  rw [hempty]
  exact mem_foldl_activate_of_mem s.activeDrawingIds (processFrom 0 l)
    s.activeDrawingIds (fun x hx => hx) d hd nm hnm hne

/-- C10 witness: the amended theorem instantiated on an empty registry
receiving one id-less instruction. -/
theorem C10_setDrawings_activates_all_from_empty_witness :
    emptyState.drawings = [] ∧
      (ctxAutoIdTag ++ toString 0)
        ∈ (handleSetDrawings emptyState [appleNoId]).activeDrawingIds :=
  ⟨rfl,
    C10_setDrawings_activates_all_from_empty emptyState [appleNoId] rfl
      { appleNoId with id := some (ctxAutoIdTag ++ toString 0) } (by decide)
      (ctxAutoIdTag ++ toString 0) rfl⟩

/-!
### Conversation Orchestrator timers (`SpeechRecognition.tsx`, first variant)

The component drives narration playback with two racing completion paths —
the audio element's `ended` event (`handleAudioEnded`, lines 82-94) and a
duration-based fallback `setTimeout` armed in the `onloadedmetadata` handler
(lines 438-458) — plus fire-and-forget marker-activation timers (lines
414-428) whose `setTimeout` handles are never stored.  The embedding records
which timers are pending and counts capture sessions begun;
`startRecordingInternal` (lines 234-273) is modelled by its state effect of
starting a new capture session. -/

/-- Timer-and-session state of the orchestrator component. -/
structure SpeechState where
  isRecording : Bool
  isPlaying : Bool
  autoMicRef : Bool
  audioEndTimeout : Bool
  markerTimers : List (String × ℤ)
  recorderActive : Bool
  captureStarts : ℕ
deriving DecidableEq

/-- `startRecordingInternal` (lines 234-273): begins a new capture session.
It does not touch `audioEndTimeoutRef` or any marker timer. -/
def startRecordingInternal (s : SpeechState) : SpeechState :=
  { s with
    isRecording := true, recorderActive := true,
    captureStarts := s.captureStarts + 1 }

/-- `handleAudioEnded` (lines 82-94): clears the playing flag and, when
auto-mic is enabled (read through the ref), starts a new capture session.  It
does not clear a pending fallback timeout. -/
def handleAudioEnded (s : SpeechState) : SpeechState :=
  let s1 := { s with isPlaying := false }
  if s1.autoMicRef then startRecordingInternal s1 else s1

/-- The fallback timeout elapsing (the callback of lines 447-457): only
possible while the timeout is pending; it consumes the pending timer, clears
the playing flag and, when auto-mic is enabled, starts a new capture
session. -/
def fireFallbackTimeout (s : SpeechState) : SpeechState :=
  if s.audioEndTimeout then
    let s1 := { s with audioEndTimeout := false, isPlaying := false }
    if s1.autoMicRef then startRecordingInternal s1 else s1
  else s

/-- The fallback-arming tail of the `onloadedmetadata` handler (lines
438-458): clear any existing fallback timeout, then arm a new one only when
auto-mic is enabled. -/
def armFallback (s : SpeechState) : SpeechState :=
  let s1 := { s with audioEndTimeout := false }
  if s1.autoMicRef then { s1 with audioEndTimeout := true } else s1

/-- The response `onloadedmetadata` handler (lines 407-459): provided there
is at least one marker and one drawing, schedules one fire-and-forget
marker-activation timer per `[DRAW:<id>]` marker at
`Math.floor((position / cleanLength) × actualDuration)`; then playback starts
(the `play` event sets the playing flag) and the fallback timeout is
armed. -/
def onResponseMetadata (markers : List (String × ℕ)) (drawingsCount : ℕ)
    (cleanLength : ℕ) (actualDuration : ℚ) (s : SpeechState) : SpeechState :=
  let s1 :=
    if ¬ markers.isEmpty ∧ drawingsCount ≠ 0 then
      { s with markerTimers := s.markerTimers
          ++ markers.map (fun m =>
              (m.1, Int.floor (((m.2 : ℚ) / (cleanLength : ℚ)) * actualDuration))) }
    else s
  let s2 := { s1 with isPlaying := true }
  armFallback s2

/-- `stopRecording` (lines 286-297): stops the recorder when it is not
inactive, clears the recording flag, and clears the pending fallback timeout.
Marker-activation timers have no stored handle, so nothing touches them. -/
def stopRecording (s : SpeechState) : SpeechState :=
  let s1 := if s.recorderActive then { s with recorderActive := false } else s
  { s1 with isRecording := false, audioEndTimeout := false }

/-- A quiescent orchestrator state with auto-mic enabled. -/
def idleAutoMic : SpeechState :=
  { isRecording := false, isPlaying := false, autoMicRef := true,
    audioEndTimeout := false, markerTimers := [], recorderActive := false,
    captureStarts := 0 }

/-- An orchestrator state with an active capture session, before a response's
metadata handler runs. -/
def recordingSession : SpeechState :=
  { isRecording := true, isPlaying := false, autoMicRef := true,
    audioEndTimeout := false, markerTimers := [], recorderActive := true,
    captureStarts := 1 }

/-- The marker id used in the C6 counterexample. -/
def a1Id : String := "a1"

/-- A playback state with one pending marker-activation timer and the armed
fallback timeout, as produced by the response metadata handler. -/
def pendingMarkerState : SpeechState :=
  onResponseMetadata [(a1Id, 3)] 1 8 4000 recordingSession

/-- C1: the `ended` handler does not cancel the armed fallback timeout, so on
a turn where `ended` fires before the estimate-based timeout elapses, both
completion paths run and two capture sessions are started — the completion
transition executes twice, contradicting the claimed mutual exclusion.  This
also contradicts the code's own comment that the timeout is "a fallback in
case the 'ended' event doesn't fire". -/
theorem C1_ended_and_fallback_both_fire :
    (onResponseMetadata [] 0 1 4000 idleAutoMic).audioEndTimeout = true ∧
      (handleAudioEnded (onResponseMetadata [] 0 1 4000 idleAutoMic)).audioEndTimeout
        = true ∧
      (handleAudioEnded (onResponseMetadata [] 0 1 4000 idleAutoMic)).captureStarts = 1 ∧
      (fireFallbackTimeout
          (handleAudioEnded (onResponseMetadata [] 0 1 4000 idleAutoMic))).captureStarts
        = 2 := by
  exact ⟨by decide, by decide, by decide, by decide⟩

/-- C6 counterexample: after the metadata handler schedules a marker timer,
a manual stop clears the fallback timeout and the recording flag, yet the
pending marker-activation timer survives — the pending-timer list is the same
non-empty list as before the stop. -/
theorem C6_marker_timer_survives_counterexample :
    pendingMarkerState.markerTimers ≠ [] ∧
      (stopRecording pendingMarkerState).audioEndTimeout = false ∧
      (stopRecording pendingMarkerState).isRecording = false ∧
      (stopRecording pendingMarkerState).markerTimers = pendingMarkerState.markerTimers := by
  refine ⟨?_, rfl, rfl, rfl⟩
  show ¬ _ = _
  simp [pendingMarkerState, onResponseMetadata, armFallback, recordingSession]

/-- C6 (amended): a manual stop cancels the pending auto-recapture fallback
timeout and clears the recording flag, but the marker-activation timers are
fire-and-forget — their handles are never stored, so the pending marker-timer
list is unchanged by the stop and those timers can still fire later. -/
theorem C6_stop_cancels_fallback_not_markers (s : SpeechState) :
    (stopRecording s).isRecording = false ∧
      (stopRecording s).audioEndTimeout = false ∧
      (stopRecording s).markerTimers = s.markerTimers := by
  refine ⟨rfl, rfl, ?_⟩
  unfold stopRecording
  dsimp only
  split <;> rfl

/-!
### Answer validation (`AnswerValidator.tsx` and `App.handleSendMessage`,
src/unnamed/part_000)
-/

/-- The `final_answer` payload persisted as the current problem. -/
structure FinalAnswer where
  correct_value : StrOrNum
  explanation : String
  feedback_correct : String
  feedback_incorrect : String
deriving DecidableEq

/-- `validateAnswer` (src/src/components/AnswerValidator.tsx lines 46-74):
returns nothing when the trimmed candidate is empty; otherwise compares
`String(correct_value).trim().toLowerCase()` with the candidate trimmed and
lowercased, and produces the validation message — `feedback_correct` on a
match, `feedback_incorrect` alone on a mismatch (the explanation is rendered
separately as a hint, lines 103-107) — together with the correctness flag. -/
def validateAnswer (currentProblem : FinalAnswer) (studentAnswer : String) :
    Option (String × Bool) :=
  if trimString studentAnswer = "" then none
  else
    let normalizedCorrect := lowerString (trimString (jsToString currentProblem.correct_value))
    let normalizedStudent := lowerString (trimString studentAnswer)
    let isCorrect := normalizedCorrect == normalizedStudent
    some
      (if isCorrect then currentProblem.feedback_correct
       else currentProblem.feedback_incorrect,
        isCorrect)

/-- The answer-check inside `handleSendMessage` (src/unnamed/part_000 lines
128-151): the same trim/lowercase string comparison; the transcript feedback
is `feedback_correct` on a match and
`` `${feedback_incorrect} ${explanation}` `` on a mismatch. -/
def handleSendMessage (problem : FinalAnswer) (message : String) : String × Bool :=
  let studentAnswer := lowerString (trimString message)
  let correctAnswer := lowerString (trimString (jsToString problem.correct_value))
  let isCorrect := studentAnswer == correctAnswer
  (if isCorrect then problem.feedback_correct
   else problem.feedback_incorrect ++ " " ++ problem.explanation,
    isCorrect)

/-- A stored problem whose correct value is the number 5. -/
def problemFive : FinalAnswer :=
  { correct_value := .num 5, explanation := "Because two plus three is five.",
    feedback_correct := "Great job!", feedback_incorrect := "Not quite." }

/-- A wrong candidate answer. -/
def wrongAnswerText : String := "4"

/-- The candidate answer `" 5 "` of the claim's scenario. -/
def paddedFiveText : String := " 5 "

/-- C9 counterexample: on a mismatch, `validateAnswer`'s feedback message is
`feedback_incorrect` alone — not `feedback_incorrect` concatenated with the
(non-empty) explanation, with or without a separating space. -/
theorem C9_message_not_concatenated_counterexample :
    validateAnswer problemFive wrongAnswerText
        = some (problemFive.feedback_incorrect, false) ∧
      problemFive.feedback_incorrect
          ≠ problemFive.feedback_incorrect ++ problemFive.explanation ∧
      problemFive.feedback_incorrect
          ≠ problemFive.feedback_incorrect ++ " " ++ problemFive.explanation := by
  exact ⟨by decide, by decide, by decide⟩

/-- C9 (amended): for a non-whitespace candidate, both validators report
correct exactly when the stored value and the candidate agree after string
conversion, trimming and lowercasing (so `" 5 "` matches the number 5, with
no numeric tolerance); on a match both messages are `feedback_correct`
verbatim; on a mismatch `validateAnswer`'s message is `feedback_incorrect`
alone while `handleSendMessage`'s feedback is `feedback_incorrect`, a space,
and the explanation. -/
theorem C9_validation_normalized_equality (p : FinalAnswer) (cand : String)
    (h : trimString cand ≠ "") :
    ((validateAnswer p cand).map Prod.snd = some true
        ↔ lowerString (trimString (jsToString p.correct_value))
            = lowerString (trimString cand)) ∧
      ((handleSendMessage p cand).2 = true
        ↔ lowerString (trimString (jsToString p.correct_value))
            = lowerString (trimString cand)) ∧
      (lowerString (trimString (jsToString p.correct_value))
          = lowerString (trimString cand) →
        validateAnswer p cand = some (p.feedback_correct, true) ∧
          handleSendMessage p cand = (p.feedback_correct, true)) ∧
      (lowerString (trimString (jsToString p.correct_value))
          ≠ lowerString (trimString cand) →
        validateAnswer p cand = some (p.feedback_incorrect, false) ∧
          handleSendMessage p cand
            = (p.feedback_incorrect ++ " " ++ p.explanation, false)) := by
  by_cases he : lowerString (trimString (jsToString p.correct_value))
      = lowerString (trimString cand)
  · have hb : (lowerString (trimString (jsToString p.correct_value))
        == lowerString (trimString cand)) = true := beq_iff_eq.mpr he
    have hb2 : (lowerString (trimString cand)
        == lowerString (trimString (jsToString p.correct_value))) = true :=
      beq_iff_eq.mpr he.symm
    simp [validateAnswer, handleSendMessage, if_neg h, hb, hb2, he]
  · have hb : (lowerString (trimString (jsToString p.correct_value))
        == lowerString (trimString cand)) = false :=
      beq_eq_false_iff_ne.mpr he
    have hb2 : (lowerString (trimString cand)
        == lowerString (trimString (jsToString p.correct_value))) = false :=
      beq_eq_false_iff_ne.mpr (fun hcontra => he hcontra.symm)
    simp [validateAnswer, handleSendMessage, if_neg h, hb, hb2, he]

/-- C9 witness: the amended theorem instantiated at the claim's scenario —
candidate `" 5 "` against the numeric correct value 5 reports correct. -/
theorem C9_validation_normalized_equality_witness :
    trimString paddedFiveText ≠ "" ∧
      validateAnswer problemFive paddedFiveText = some (problemFive.feedback_correct, true) :=
  ⟨by decide,
    ((C9_validation_normalized_equality problemFive paddedFiveText (by decide)).2.2.1
      (by decide)).1⟩

end AITutor
